import Mathlib

/-!
Verification of the core logic of `frank.py`, a command-line client that
buys postage and lays stamps out on label sheets.  The definitions below
are shallow embeddings of the corresponding Python functions; Python's
arbitrary-precision non-negative integers are modelled as `Nat`, strings
as `String`, fallible code as `Except`.
-/

namespace Frank

/-- A (page, column, row) placement on a label sheet, all 1-based.
Embeds the triple computed in `buy` (frank.py lines 341-343). -/
structure Placement where
  page : Nat
  column : Nat
  row : Nat
deriving Repr, DecidableEq

/-- Fuel-bounded floor base-2 logarithm; with fuel `≥ n` it equals
`⌊log2 n⌋` for `n ≥ 1`.  (Structural recursion on the fuel, so that the
kernel can evaluate it on concrete inputs.) -/
def log2F : Nat → Nat → Nat
  | 0, _ => 0
  | fuel + 1, n => if n < 2 then 0 else 1 + log2F fuel (n / 2)

/-- `⌊log2 n⌋` for `n ≥ 1`: `2 ^ pyLog2 n ≤ n < 2 ^ (pyLog2 n + 1)`. -/
def pyLog2 (n : Nat) : Nat := log2F n n

/-- Round-to-nearest of the exact rational `n / d` (`d ≥ 1`) to an
integer, ties to even — the IEEE-754 default rounding applied to a
quotient whose unit in the last place has been scaled to 1. -/
def rne (n d : Nat) : Nat :=
  let q := n / d
  let r := n % d
  if 2 * r < d then q
  else if 2 * r > d then q + 1
  else if q % 2 = 0 then q else q + 1

/-- Scale the fraction `a / b` by `2 ^ t` without loss: multiply the
numerator (for `t ≥ 0`) or the denominator (for `t < 0`) by `2 ^ |t|`. -/
def scaledNumDen (a b : Nat) (t : Int) : Nat × Nat :=
  if 0 ≤ t then (a * 2 ^ t.toNat, b) else (a, b * 2 ^ (-t).toNat)

/-- The unique exponent `t` with `2 ^ 52 ≤ (a / b) * 2 ^ t < 2 ^ 53`
(for `a, b ≥ 1`): the scaling that puts the quotient in the binary64
significand range. -/
def floatDivExp (a b : Nat) : Int :=
  let t0 : Int := 52 - (Int.ofNat (pyLog2 a) - Int.ofNat (pyLog2 b))
  let nd := scaledNumDen a b t0
  if nd.1 < 2 ^ 52 * nd.2 then t0 + 1 else t0

/-- Embeds Python 3's `int(a / b)` for non-negative `a` and positive
`b`: `/` is IEEE-754 binary64 true division — CPython computes the
correctly rounded (round-to-nearest, ties-to-even) double of the exact
quotient — and `int()` truncates toward zero.  The quotient is scaled
into the 53-bit significand range `[2^52, 2^53)`, rounded there with
exact integer arithmetic, and scaled back; the final division or
multiplication by `2 ^ t` is the truncation of the resulting binary
value.  The exponent is unbounded here: quotients at or above the
binary64 overflow threshold (`≈ 2^1024`), where Python raises
`OverflowError`, are outside the model; subnormal quotients are all
below 1 and truncate to 0 in both the model and Python. -/
def pyIntDiv (a b : Nat) : Nat :=
  if a = 0 then 0 else
  let t := floatDivExp a b
  let nd := scaledNumDen a b t
  let m := rne nd.1 nd.2
  if 0 ≤ t then m / 2 ^ t.toNat else m * 2 ^ (-t).toNat

/-- Embeds the placement computation of `buy` (frank.py lines 341-343):
`page = int(i / (pi[0] * pi[1])) + 1`, `column = int(i % pi[0]) + 1`,
`row = int(int(i / pi[0]) % pi[1]) + 1`, where `pi = (cols, rows)` and
`i` is the 0-based recipient index.  Python's `%` on integers is exact
(and `int` on its result is the identity), but `/` is float true
division, embedded by `pyIntDiv`. -/
def place (i : Nat) (cols rows : Nat) : Placement :=
  { page := pyIntDiv i (cols * rows) + 1
  , column := i % cols + 1
  , row := pyIntDiv i cols % rows + 1 }

/-- Modelled from the spec: the closed-form invariant of section 3,
`page = floor(i / (columns_per_row * rows_per_page)) + 1`,
`column = (i mod columns_per_row) + 1`,
`row = (floor(i / columns_per_row) mod rows_per_page) + 1`. -/
def placeSpec (i : Nat) (cols rows : Nat) : Placement :=
  { page := Nat.div i (cols * rows) + 1
  , column := Nat.mod i cols + 1
  , row := Nat.mod (Nat.div i cols) rows + 1 }

/-- One normalized address record in the field order of the tuple
returned by `parse_address`:
`(first, name, street, number, zip, city, country)`. -/
structure AddressRecord where
  first : String
  name : String
  street : String
  number : String
  zip : String
  city : String
  country : String
deriving Repr, DecidableEq

/-- Errors raised by `parse_address`: a `KeyError` on a missing config
section or key (the spec's `ConfigLookupError`), or the `ValueError`
raised on a recipient string with no known delimiters (the spec's
`ParseError`). -/
inductive AddrError where
  | configLookup (key : String)
  | parse (msg : String)
deriving Repr, DecidableEq

/-- A parsed INI config: a list of sections, each a list of
key/value pairs. -/
def Config := List (String × List (String × String))

/-- Section lookup, `conf[name]` / `conf.has_section(name)`. -/
def Config.getSection (c : Config) (name : String) :
    Option (List (String × String)) :=
  match c.find? (fun p => p.1 == name) with
  | some p => some p.2
  | none => none

/-- Key lookup within a section, `h[key]` (failing) / `h.get(key)`. -/
def getKey (h : List (String × String)) (key : String) : Option String :=
  match h.find? (fun p => p.1 == key) with
  | some p => some p.2
  | none => none

/-- Key lookup with default, `h.get(key, d)`. -/
def getKeyD (h : List (String × String)) (key d : String) : String :=
  (getKey h key).getD d

/-- Python's `d in s` for a single-character needle `d`, computed on the
character list of `s`. -/
def pyContains (s : String) (d : Char) : Bool :=
  s.data.contains d

/-- Python's `s.split(d)` for a single-character separator `d`: every
occurrence of `d` separates two (possibly empty) chunks. -/
def pySplit (s : String) (d : Char) : List String :=
  (s.data.splitOn d).map String.mk

/-- Python's `sep.join(xs)`. -/
def pyJoin (sep : String) (xs : List String) : String :=
  String.mk (List.intercalate sep.data (xs.map String.data))

/-- Python's `s.strip()`: remove leading and trailing whitespace. -/
def pyStrip (s : String) : String :=
  String.mk
    (((s.data.dropWhile Char.isWhitespace).reverse.dropWhile
        Char.isWhitespace).reverse)

/-- Python's `s.startswith(c)` for a single character `c`. -/
def pyStartsWith (s : String) (c : Char) : Bool :=
  s.data.head? == some c

/-- Python's `s[1:]`. -/
def pyDropFirst (s : String) : String :=
  String.mk (s.data.drop 1)

/-- Embeds the delimiter search loop of `parse_address` (frank.py lines
258-261): `delimiter = None; for d in ['\n', ';']: if d in s:
delimiter = d`. -/
def find_delimiter (s : String) : Option Char :=
  [ '\n', ';' ].foldl (fun acc d => if pyContains s d then some d else acc) none

/-- Embeds the free-text branch of `parse_address` (frank.py lines
264-295), given the delimiter selected by `find_delimiter`: the input
is split into logical lines and the name, street, city and country
lines are tokenized on single spaces. -/
def parse_free (s : String) (dl : Char) : AddressRecord :=
  let l := pySplit s dl
  let fn :=
    if l.length > 0 then
      let xs := pySplit (l.headD "") ' '
      if xs.length == 1 then ("", xs.headD "")
      else (pyJoin " " xs.dropLast, xs.getLastD "")
    else ("", "")
  let sn :=
    if l.length > 1 then
      let xs := pySplit (l.getD 1 "") ' '
      if xs.length == 1 then (xs.headD "", "")
      else (pyJoin " " xs.dropLast, xs.getLastD "")
    else ("", "")
  let zc :=
    if l.length > 2 then
      let xs := pySplit (l.getD 2 "") ' '
      if xs.length == 1 then ("", xs.headD "")
      else (xs.headD "", pyJoin " " (xs.drop 1))
    else ("", "")
  let country :=
    if l.length > 3 then
      let c := pyStrip (l.getD 3 "")
      if c ≠ "" then c else "DEU"
    else "DEU"
  ⟨fn.1, fn.2, sn.1, sn.2, zc.1, zc.2, country⟩

/-- Embeds `parse_address` (frank.py lines 253-295).  A string starting
with `$` is looked up in config section `a.<name>` with required keys
`name`, `street`, `number`, `zip`, `city` and optional keys `first`
(default `""`) and `country` (default `"DEU"`); any other string is
split on the delimiter found by `find_delimiter`, failing when there
is none. -/
def parse_address (s : String) (conf : Config) :
    Except AddrError AddressRecord :=
  if pyStartsWith s '$' then
    match conf.getSection ("a." ++ pyDropFirst s) with
    | none => .error (.configLookup ("a." ++ pyDropFirst s))
    | some h =>
      match getKey h "name", getKey h "street", getKey h "number",
            getKey h "zip", getKey h "city" with
      | some name, some street, some number, some zip, some city =>
          .ok ⟨getKeyD h "first" "", name, street, number, zip, city,
               getKeyD h "country" "DEU"⟩
      | none, _, _, _, _ => .error (.configLookup "name")
      | _, none, _, _, _ => .error (.configLookup "street")
      | _, _, none, _, _ => .error (.configLookup "number")
      | _, _, _, none, _ => .error (.configLookup "zip")
      | _, _, _, _, none => .error (.configLookup "city")
  else
    match find_delimiter s with
    | none => .error (.parse "recipient string has no known delimiters")
    | some dl => .ok (parse_free s dl)

/-- Modelled from the spec: "whichever delimiter is first found in the
string" — the first character of `s`, scanning left to right, that is a
newline or a semicolon. -/
def firstDelimiterInString (s : String) : Option Char :=
  s.data.find? (fun c => c == '\n' || c == ';')

/-- Embeds `parse_csv` (frank.py lines 297-307) on the already decoded
CSV rows: the first row (header) is skipped; each following row
contributes its first 7 columns (`r[0:7]`) padded with empty strings to
length 7 (`[''] * (7 - len(r))`), and, when it has more than 7 columns,
its 8th column is appended to the product overrides.  On an empty file
`next(rs)` raises `StopIteration`, modelled as an error. -/
def parse_csv (rows : List (List String)) :
    Except String (List (List String) × List String) :=
  match rows with
  | [] => .error "StopIteration"
  | _ :: rs =>
    .ok (rs.foldl
      (fun acc r =>
        ( acc.1 ++ [r.take 7 ++ List.replicate (7 - r.length) ""]
        , if r.length > 7 then acc.2 ++ [r.getD 7 ""] else acc.2))
      ([], []))

/-- Embeds the sender/product consumption loop of `run` (frank.py lines
428-435): each recipient is paired with the heads `ss[0]`, `ps[0]` of
the current sender and product lists, and each list is popped
(`xs = xs[1:]`) only while more than one element remains. -/
def run_pairs {ρ σ π : Type} [Inhabited σ] [Inhabited π]
    (recipients : List ρ) (ss : List σ) (ps : List π) : List (σ × π) :=
  match recipients with
  | [] => []
  | _ :: rs =>
      (ss.headD default, ps.headD default) ::
        run_pairs rs (if ss.length > 1 then ss.drop 1 else ss)
                     (if ps.length > 1 then ps.drop 1 else ps)

/-- One entry of the static format catalog `inema.formats`, restricted
to the fields read by `list_formats`: identifier, display name, page
type, page size `x`/`y` and the label grid counts `labelX`/`labelY`. -/
structure Format where
  id : Nat
  name : String
  pageType : String
  size_x : Nat
  size_y : Nat
  labelX : Nat
  labelY : Nat
deriving Repr, DecidableEq

/-- Embeds the selection and label-count computation of `list_formats`
(frank.py lines 238-251), returning the printed rows as
(format, label count) pairs.  The compiled case-insensitive regex
search `e.search` is abstracted as a predicate `m` on strings: a format
is selected iff `m` accepts its display name, its page type, or the
string `"<width>x<height>"` built from the page size, and the printed
label count is `labelX * labelY`. -/
def list_formats (m : String → Bool) (formats : List Format) :
    List (Format × Nat) :=
  match formats with
  | [] => []
  | f :: fs =>
    if m f.name || m f.pageType ||
        m (toString f.size_x ++ "x" ++ toString f.size_y) then
      (f, f.labelX * f.labelY) :: list_formats m fs
    else
      list_formats m fs

/-- Python truthiness of the manifest setting, which is either the
`argparse` boolean (default `False`) or a raw config string assigned by
`apply_config`; a string is truthy iff it is non-empty. -/
inductive ManifestVal where
  | bool (b : Bool)
  | str (s : String)
deriving Repr, DecidableEq

/-- `bool(v)` for a `ManifestVal`. -/
def ManifestVal.truthy : ManifestVal → Bool
  | .bool b => b
  | .str s => s ≠ ""

/-- The fields of the parsed command line used by `mk_filename` and
`store_files`: the output directory, the file name suffix and the
manifest setting. -/
structure Args where
  output : String
  suffix : String
  manifest : ManifestVal
deriving Repr, DecidableEq

/-- Embeds `mk_filename` (frank.py lines 349-352):
`'{}/{}_{}{}.pdf'.format(args.output, base, date, args.suffix)`, where
`date` is today's date formatted `%Y-%m-%d`, passed explicitly here. -/
def mk_filename (args : Args) (date : String) (base : String) : String :=
  args.output ++ "/" ++ base ++ "_" ++ date ++ args.suffix ++ ".pdf"

/-- The fields of the checkout result read by `store_files`: the
optional manifest payload `manifest_pdf_bin`, the optional top-level
`pdf_bin` and the optional `pdf_bin` of the first voucher. -/
structure CheckoutResult where
  manifest_pdf_bin : Option String
  pdf_bin : Option String
  voucher0_pdf_bin : Option String
deriving Repr, DecidableEq

/-- Embeds `store_files` (frank.py lines 354-371) as the list of
`(filename, payload)` file writes it performs, in order; each write
replaces any existing file of that name (`open(..., 'wb')`).  Line 356
calls `mk_filename(base='manifest')` without the required positional
parameter `args`, so Python raises `TypeError` whenever the checkout
result carries a manifest payload and the manifest setting is truthy;
this is modelled as the error case.  Printing via `lpr` is outside the
model. -/
def store_files (res : CheckoutResult) (args : Args) (date : String) :
    Except String (List (String × String)) :=
  if res.manifest_pdf_bin.isSome && args.manifest.truthy then
    .error "TypeError: mk_filename() missing 1 required positional argument"
  else
    let pdf_bin :=
      match res.pdf_bin with
      | some b => some b
      | none => res.voucher0_pdf_bin
    match pdf_bin with
    | some b =>
        if b ≠ "" then .ok [(mk_filename args date "postage", b)]
        else .ok []
    | none => .ok []

/-- Embeds `apply_config` (frank.py lines 326-328): when the manifest
setting is falsy (`not args.manifest`) and the config has a `general`
section, the setting is assigned `conf['general'].get('manifest',
False)` — the raw string value of the `manifest` key, or `False` when
the key is absent. -/
def apply_config (manifest : ManifestVal) (conf : Config) : ManifestVal :=
  if !manifest.truthy then
    match conf.getSection "general" with
    | some h =>
        match getKey h "manifest" with
        | some v => .str v
        | none => .bool false
    | none => manifest
  else manifest

end Frank

namespace FrankClaims

open Frank

/-- C1: the computed placement does not equal the spec's closed form
for every non-negative index.  At `i = 10^17` and grid `(c, r) =
(3, 1)`, `int(10^17 / 3)` truncates the correctly rounded double to
`33333333333333332`, so the code's page is `33333333333333333` while
the closed form `⌊i / (c·r)⌋ + 1` gives `33333333333333334`.  The
claim's small examples `place 0 (2,3) = (1,1,1)`,
`place 5 (2,3) = (1,2,3)` and `place 6 (2,3) = (2,1,1)` do hold: float
truncation and floor agree there. -/
theorem C1_place_float_truncation :
    place (10 ^ 17) 3 1 ≠ placeSpec (10 ^ 17) 3 1 ∧
    (place (10 ^ 17) 3 1).page = 33333333333333333 ∧
    (placeSpec (10 ^ 17) 3 1).page = 33333333333333334 ∧
    place 0 2 3 = ⟨1, 1, 1⟩ ∧
    place 5 2 3 = ⟨1, 2, 3⟩ ∧
    place 6 2 3 = ⟨2, 1, 1⟩ := by
  refine ⟨by decide, by decide, by decide, by decide, by decide, by decide⟩

/-- C9: for every non-negative index `i` and grid `(c, r)` with
`c ≥ 1`, `r ≥ 1`, the computed placement lies inside the grid:
`1 ≤ column ≤ c`, `1 ≤ row ≤ r`, and `page ≥ 1`. -/
theorem C9_place_in_grid (i c r : Nat) (hc : 1 ≤ c) (hr : 1 ≤ r) :
    1 ≤ (place i c r).column ∧ (place i c r).column ≤ c ∧
    1 ≤ (place i c r).row ∧ (place i c r).row ≤ r ∧
    1 ≤ (place i c r).page := by
  have hcpos : 0 < c := hc
  have hrpos : 0 < r := hr
  refine ⟨Nat.le_add_left 1 _, ?_, Nat.le_add_left 1 _, ?_, Nat.le_add_left 1 _⟩
  · exact Nat.succ_le_of_lt (Nat.mod_lt _ hcpos)
  · exact Nat.succ_le_of_lt (Nat.mod_lt _ hrpos)

/-- Witness for C9 at `i = 7`, `c = 2`, `r = 3`. -/
theorem C9_place_in_grid_witness :
    1 ≤ (place 7 2 3).column ∧ (place 7 2 3).column ≤ 2 ∧
    1 ≤ (place 7 2 3).row ∧ (place 7 2 3).row ≤ 3 ∧
    1 ≤ (place 7 2 3).page :=
  C9_place_in_grid 7 2 3 (by decide) (by decide)

/-- `find_delimiter` keeps the last delimiter of the search order
`['\n', ';']` that occurs in the string, so `';'` wins whenever `s`
contains a semicolon. -/
theorem find_delimiter_eq (s : String) :
    find_delimiter s =
      if pyContains s ';' then some ';'
      else if pyContains s '\n' then some '\n' else none := by
  by_cases h1 : pyContains s '\n' <;> by_cases h2 : pyContains s ';' <;>
    simp [find_delimiter, h1, h2]

/-- C2 (counterexample): in `"a b\nc;d"` the delimiter first found in
the string, scanning left to right, is the newline, yet `parse_address`
splits on the semicolon, and the two splits give different records. -/
theorem C2_counterexample :
    firstDelimiterInString "a b\nc;d" = some '\n' ∧
    parse_address "a b\nc;d" [] = .ok (parse_free "a b\nc;d" ';') ∧
    parse_free "a b\nc;d" ';' ≠ parse_free "a b\nc;d" '\n' := by
  refine ⟨by decide, ?_, by decide⟩
  have h := find_delimiter_eq "a b\nc;d"
  simp [parse_address, h, show (pyStartsWith "a b\nc;d" '$') = false by decide,
        show (pyContains "a b\nc;d" ';') = true by decide]

/-- C2 (amended): for every recipient string not starting with `$`, if
neither a newline nor a semicolon occurs in the string, `parse_address`
fails with the parse error; otherwise the string is split on `';'`
whenever a semicolon occurs anywhere in it, and on `'\n'` only when a
newline occurs and no semicolon does (the delimiter is the last of the
search order newline-then-semicolon that occurs, not the one occurring
first in the string). -/
theorem C2_delimiter_selection (s : String) (conf : Config)
    (hs : pyStartsWith s '$' = false) :
    (pyContains s '\n' = false → pyContains s ';' = false →
      parse_address s conf =
        .error (.parse "recipient string has no known delimiters")) ∧
    (pyContains s ';' = true →
      parse_address s conf = .ok (parse_free s ';')) ∧
    (pyContains s '\n' = true → pyContains s ';' = false →
      parse_address s conf = .ok (parse_free s '\n')) := by
  have hfd := find_delimiter_eq s
  refine ⟨fun h1 h2 => ?_, fun h2 => ?_, fun h1 h2 => ?_⟩ <;>
    simp_all [parse_address, hs]

/-- Witness for C2 at the spec's example `"no-delimiter-string"` (no
delimiter, hence a parse error) and at `"Jane User;Fakestreet 2"`
(semicolon present, split on `';'`). -/
theorem C2_delimiter_selection_witness :
    parse_address "no-delimiter-string" [] =
      .error (.parse "recipient string has no known delimiters") ∧
    parse_address "Jane User;Fakestreet 2" [] =
      .ok (parse_free "Jane User;Fakestreet 2" ';') :=
  ⟨(C2_delimiter_selection "no-delimiter-string" [] (by decide)).1
      (by decide) (by decide),
   (C2_delimiter_selection "Jane User;Fakestreet 2" [] (by decide)).2.1
      (by decide)⟩

/-- The first and name fields produced by `parse_free` come from
tokenizing the first logical line on single spaces. -/
theorem parse_free_name (s : String) (dl : Char) :
    ((parse_free s dl).first, (parse_free s dl).name) =
      (let xs := pySplit ((pySplit s dl).headD "") ' '
       if xs.length == 1 then ("", xs.headD "")
       else (pyJoin " " xs.dropLast, xs.getLastD "")) := by
  by_cases h : (pySplit s dl).length > 0
  · simp only [parse_free, h, if_true]
  · have hnil : pySplit s dl = [] :=
      List.length_eq_zero.mp (Nat.eq_zero_of_not_pos h)
    simp only [parse_free, h, if_false, hnil]
    decide

/-- C3: for every free-text input accepted by `parse_address`, the name
line (first logical line) is split on single spaces: with exactly one
token the first name is empty and the token is the last name/company;
with more tokens, all but the last, rejoined with single spaces, form
the first name and the last token is the last name/company. -/
theorem C3_name_line_split (s : String) (conf : Config) (dl : Char)
    (r : AddressRecord) (hs : pyStartsWith s '$' = false)
    (hdl : find_delimiter s = some dl)
    (hr : parse_address s conf = .ok r) :
    ((pySplit ((pySplit s dl).headD "") ' ').length = 1 →
      r.first = "" ∧
      r.name = (pySplit ((pySplit s dl).headD "") ' ').headD "") ∧
    ((pySplit ((pySplit s dl).headD "") ' ').length > 1 →
      r.first = pyJoin " " (pySplit ((pySplit s dl).headD "") ' ').dropLast ∧
      r.name = (pySplit ((pySplit s dl).headD "") ' ').getLastD "") := by
  have hr' : r = parse_free s dl := by
    simp [parse_address, hs, hdl] at hr
    exact hr.symm
  subst hr'
  have h := parse_free_name s dl
  simp only at h
  constructor
  · intro h1
    rw [if_pos (by simpa using h1)] at h
    exact ⟨congrArg Prod.fst h, congrArg Prod.snd h⟩
  · intro h1
    rw [if_neg (by simp only [beq_iff_eq]; omega)] at h
    exact ⟨congrArg Prod.fst h, congrArg Prod.snd h⟩

/-- Witness for C3 at the spec example `"Jane User;Fakestreet 2"`:
first name `"Jane"`, last name `"User"`. -/
theorem C3_name_line_split_witness :
    (parse_free "Jane User;Fakestreet 2" ';').first = "Jane" ∧
    (parse_free "Jane User;Fakestreet 2" ';').name = "User" := by
  have h := (C3_name_line_split "Jane User;Fakestreet 2" [] ';'
    (parse_free "Jane User;Fakestreet 2" ';') (by decide) (by decide)
    rfl).2 (by decide)
  exact ⟨h.1.trans (by decide), h.2.trans (by decide)⟩

/-- C4: for every input starting with `$`, `parse_address` looks the
record up in config section `a.<name>`: if the section is missing it
fails with a config lookup error; if the section is present and the
required keys `name`, `street`, `number`, `zip`, `city` are all
present, it returns the 7-field record with `first` defaulting to `""`
and `country` defaulting to `"DEU"`; if a required key is missing it
fails with a config lookup error. -/
theorem C4_dollar_lookup (s : String) (conf : Config)
    (hs : pyStartsWith s '$' = true) :
    (conf.getSection ("a." ++ pyDropFirst s) = none →
      parse_address s conf =
        .error (.configLookup ("a." ++ pyDropFirst s))) ∧
    (∀ h, conf.getSection ("a." ++ pyDropFirst s) = some h →
      ((∀ name street number zip city,
          getKey h "name" = some name → getKey h "street" = some street →
          getKey h "number" = some number → getKey h "zip" = some zip →
          getKey h "city" = some city →
          parse_address s conf =
            .ok ⟨getKeyD h "first" "", name, street, number, zip, city,
                 getKeyD h "country" "DEU"⟩) ∧
       ((getKey h "name" = none ∨ getKey h "street" = none ∨
         getKey h "number" = none ∨ getKey h "zip" = none ∨
         getKey h "city" = none) →
          ∃ k, parse_address s conf = .error (.configLookup k)))) := by
  refine ⟨fun hn => by simp [parse_address, hs, hn], fun h hsec => ⟨?_, ?_⟩⟩
  · intro name street number zip city h1 h2 h3 h4 h5
    simp [parse_address, hs, hsec, h1, h2, h3, h4, h5]
  · intro hmiss
    cases hg1 : getKey h "name" with
    | none => exact ⟨"name", by simp [parse_address, hs, hsec, hg1]⟩
    | some name =>
      cases hg2 : getKey h "street" with
      | none => exact ⟨"street", by simp [parse_address, hs, hsec, hg1, hg2]⟩
      | some street =>
        cases hg3 : getKey h "number" with
        | none =>
          exact ⟨"number", by simp [parse_address, hs, hsec, hg1, hg2, hg3]⟩
        | some number =>
          cases hg4 : getKey h "zip" with
          | none =>
            exact ⟨"zip",
              by simp [parse_address, hs, hsec, hg1, hg2, hg3, hg4]⟩
          | some zip =>
            cases hg5 : getKey h "city" with
            | none =>
              exact ⟨"city",
                by simp [parse_address, hs, hsec, hg1, hg2, hg3, hg4, hg5]⟩
            | some city =>
              simp [hg1, hg2, hg3, hg4, hg5] at hmiss

/-- Witness for C4 at the spec's example: `"$default"` with a config
section `a.default` holding the five required keys yields the record
with empty first name and default country `"DEU"`. -/
theorem C4_dollar_lookup_witness :
    parse_address "$default"
      [("a.default",
        [("name", "Firma ACME"), ("street", "Lindenallee"),
         ("number", "3"), ("zip", "12345"), ("city", "Bielefeld")])] =
      .ok ⟨"", "Firma ACME", "Lindenallee", "3", "12345", "Bielefeld",
           "DEU"⟩ := by
  have h := ((C4_dollar_lookup "$default"
      [("a.default",
        [("name", "Firma ACME"), ("street", "Lindenallee"),
         ("number", "3"), ("zip", "12345"), ("city", "Bielefeld")])]
      (by decide)).2
      [("name", "Firma ACME"), ("street", "Lindenallee"),
       ("number", "3"), ("zip", "12345"), ("city", "Bielefeld")]
      (by decide)).1
    "Firma ACME" "Lindenallee" "3" "12345" "Bielefeld"
    (by decide) (by decide) (by decide) (by decide) (by decide)
  exact h.trans rfl

/-- Unfolding of the `parse_csv` fold: starting from any accumulator,
it appends the padded rows and the overrides of the long rows. -/
theorem parse_csv_foldl (rows : List (List String))
    (a : List (List String)) (b : List String) :
    rows.foldl
      (fun acc r =>
        ( acc.1 ++ [r.take 7 ++ List.replicate (7 - r.length) ""]
        , if r.length > 7 then acc.2 ++ [r.getD 7 ""] else acc.2))
      (a, b) =
      ( a ++ rows.map (fun r => r.take 7 ++ List.replicate (7 - r.length) "")
      , b ++ (rows.filter (fun r => r.length > 7)).map
          (fun r => r.getD 7 "")) := by
  induction rows generalizing a b with
  | nil => simp
  | cons r rs ih =>
    simp only [List.foldl_cons]
    rw [ih]
    by_cases h : r.length > 7 <;>
      simp [List.filter_cons, h, List.append_assoc]

/-- C5: `parse_csv` skips the first row; every subsequent row yields
its first 7 columns padded with empty strings to length 7, and the 8th
column of exactly the rows with more than 7 columns is collected, in
row order, as the product overrides. -/
theorem C5_parse_csv (header : List String) (rows : List (List String)) :
    parse_csv (header :: rows) =
      .ok
        ( rows.map (fun r => r.take 7 ++ List.replicate (7 - r.length) "")
        , (rows.filter (fun r => r.length > 7)).map
            (fun r => r.getD 7 "")) := by
  simp only [parse_csv]
  rw [parse_csv_foldl]
  simp

/-- Popping a list only while more than one element remains: the head
after `i + 1` such pops is the element at index `min (i + 1) (len - 1)`
of the original list. -/
theorem consume_getD {σ : Type} [Inhabited σ] (ss : List σ) (i : Nat)
    (hk : 1 ≤ ss.length) :
    (if ss.length > 1 then ss.drop 1 else ss).getD
        (min i ((if ss.length > 1 then ss.drop 1 else ss).length - 1))
        default =
      ss.getD (min (i + 1) (ss.length - 1)) default := by
  by_cases h : ss.length > 1
  · have hidx : 1 + min i (ss.length - 1 - 1) = min (i + 1) (ss.length - 1) := by
      omega
    simp only [h, if_true, List.length_drop]
    rw [List.getD_eq_getElem?_getD, List.getD_eq_getElem?_getD,
        List.getElem?_drop, hidx]
  · have h1 : min i (ss.length - 1) = min (i + 1) (ss.length - 1) := by omega
    simp only [h, if_false, h1]

/-- C6: with `k ≥ 1` senders and `m ≥ 1` products, recipient `i`
(0-based) is paired with sender `min i (k - 1)` and product
`min i (m - 1)`: both lists are consumed one-for-one and, once
exhausted, their last entry is reused for all remaining recipients. -/
theorem C6_sender_product_exhaustion {ρ σ π : Type}
    [Inhabited σ] [Inhabited π]
    (recipients : List ρ) (ss : List σ) (ps : List π)
    (hk : 1 ≤ ss.length) (hm : 1 ≤ ps.length)
    (i : Nat) (hi : i < recipients.length) :
    (run_pairs recipients ss ps)[i]? =
      some (ss.getD (min i (ss.length - 1)) default,
            ps.getD (min i (ps.length - 1)) default) := by
  induction recipients generalizing ss ps i with
  | nil => simp at hi
  | cons r rs ih =>
    cases i with
    | zero =>
      simp only [run_pairs, List.getElem?_cons_zero, Nat.min_def]
      cases ss with
      | nil => simp at hk
      | cons s ss' =>
        cases ps with
        | nil => simp at hm
        | cons p ps' => simp
    | succ i =>
      have hi' : i < rs.length := by simpa using hi
      have hk' : 1 ≤ (if ss.length > 1 then ss.drop 1 else ss).length := by
        by_cases h : ss.length > 1 <;> simp [h] <;> omega
      have hm' : 1 ≤ (if ps.length > 1 then ps.drop 1 else ps).length := by
        by_cases h : ps.length > 1 <;> simp [h] <;> omega
      have := ih (if ss.length > 1 then ss.drop 1 else ss)
        (if ps.length > 1 then ps.drop 1 else ps) hk' hm' i hi'
      simp only [run_pairs, List.getElem?_cons_succ]
      rw [this, consume_getD ss i hk, consume_getD ps i hm]

/-- Witness for C6: with 3 recipients, 2 senders and 1 product, the
third recipient reuses the second sender and the single product. -/
theorem C6_sender_product_exhaustion_witness :
    (run_pairs ["r1", "r2", "r3"] ["s1", "s2"] ["p1"])[2]? =
      some ("s2", "p1") := by
  have h := C6_sender_product_exhaustion ["r1", "r2", "r3"] ["s1", "s2"]
    ["p1"] (by decide) (by decide) 2 (by decide)
  exact h.trans (by decide)

/-- The `list_formats` selection loop is a filter followed by pairing
each selected format with its label count. -/
theorem list_formats_eq (m : String → Bool) (formats : List Format) :
    list_formats m formats =
      (formats.filter (fun f => m f.name || m f.pageType ||
          m (toString f.size_x ++ "x" ++ toString f.size_y))).map
        (fun f => (f, f.labelX * f.labelY)) := by
  induction formats with
  | nil => rfl
  | cons g fs ih =>
    by_cases h : (m g.name || m g.pageType ||
        m (toString g.size_x ++ "x" ++ toString g.size_y)) = true <;>
      simp [list_formats, List.filter_cons, h, ih]

/-- C7: a format is selected by the format filter iff the (abstracted,
case-insensitive) regex search accepts its display name, or its
page-type string, or the literal string `"<width>x<height>"` built from
its dimensions; and the label count listed with a selected format is
`labelX * labelY`. -/
theorem C7_format_filter (m : String → Bool) (formats : List Format)
    (f : Format) (n : Nat) :
    (f, n) ∈ list_formats m formats ↔
      f ∈ formats ∧
      (m f.name = true ∨ m f.pageType = true ∨
        m (toString f.size_x ++ "x" ++ toString f.size_y) = true) ∧
      n = f.labelX * f.labelY := by
  rw [list_formats_eq]
  simp only [List.mem_map, List.mem_filter, Prod.mk.injEq]
  constructor
  · rintro ⟨a, ⟨ha, hsel⟩, rfl, rfl⟩
    refine ⟨ha, ?_, rfl⟩
    simpa [Bool.or_eq_true, or_assoc] using hsel
  · rintro ⟨hf, hsel, rfl⟩
    refine ⟨f, ⟨hf, ?_⟩, rfl, rfl⟩
    simpa [Bool.or_eq_true, or_assoc] using hsel

/-- C8: evaluation of `store_files` at a checkout result carrying a
manifest payload with the manifest setting enabled: the call raises the
`TypeError` caused by `mk_filename(base='manifest')` missing its
required `args` argument, instead of writing the manifest file; without
a manifest payload the stamp document is written to
`<output>/postage_<ISO-date><suffix>.pdf`. -/
theorem C8_manifest_write_bug :
    store_files ⟨some "MANIFESTPDF", some "STAMPPDF", none⟩
        ⟨"out", "-v2", .bool true⟩ "2026-10-12" =
      .error
        "TypeError: mk_filename() missing 1 required positional argument" ∧
    store_files ⟨none, some "STAMPPDF", none⟩
        ⟨"out", "-v2", .bool true⟩ "2026-10-12" =
      .ok [("out/postage_2026-10-12-v2.pdf", "STAMPPDF")] := by
  constructor <;> rfl

/-- C10: when the manifest flag is not set (`False`) and the config has
a `general` section, `apply_config` assigns the raw string value of the
`manifest` key, which is truthy iff it is non-empty (so `"false"` or
`"0"` enable manifest writing), and assigns `False` when the key is
absent. -/
theorem C10_manifest_raw_string (conf : Config)
    (h : List (String × String))
    (hsec : conf.getSection "general" = some h) :
    (∀ v, getKey h "manifest" = some v →
      apply_config (.bool false) conf = .str v ∧
      ((ManifestVal.str v).truthy = true ↔ v ≠ "")) ∧
    (getKey h "manifest" = none →
      apply_config (.bool false) conf = .bool false) := by
  refine ⟨fun v hv => ⟨?_, ?_⟩, fun hv => ?_⟩
  · simp [apply_config, ManifestVal.truthy, hsec, hv]
  · simp [ManifestVal.truthy]
  · simp [apply_config, ManifestVal.truthy, hsec, hv]

/-- Witness for C10: with `[general] manifest = false` in the config
and the flag unset, the manifest setting becomes the string `"false"`,
which is truthy, enabling manifest writing. -/
theorem C10_manifest_raw_string_witness :
    apply_config (.bool false) [("general", [("manifest", "false")])] =
      .str "false" ∧
    (apply_config (.bool false)
        [("general", [("manifest", "false")])]).truthy = true :=
  ⟨((C10_manifest_raw_string [("general", [("manifest", "false")])]
      [("manifest", "false")] rfl).1 "false" rfl).1, by decide⟩

end FrankClaims
